import Mathlib

set_option maxRecDepth 20000

/-!
Verification development for the photo-enhancer server (`src/server.js`).

The JavaScript source is shallowly embedded: strings are modelled as
`List Char`, byte buffers as `List Nat`, the upload directory as an
association list from filename to bytes, and the nondeterministic parts
(the random 128-bit identifier from `crypto.randomBytes`, the HTTP
response of an outbound fetch, the backend's parsed JSON body) are passed
in as explicit parameters.
-/

/-- Decidable equality for `Except`, used to evaluate the embedded
fallible operations on concrete inputs. -/
instance {ε α : Type} [DecidableEq ε] [DecidableEq α] : DecidableEq (Except ε α)
  | .error e, .error f =>
    if h : e = f then .isTrue (by rw [h]) else .isFalse (fun hh => h (Except.error.inj hh))
  | .error _, .ok _ => .isFalse (fun hh => Except.noConfusion hh)
  | .ok _, .error _ => .isFalse (fun hh => Except.noConfusion hh)
  | .ok a, .ok b =>
    if h : a = b then .isTrue (by rw [h]) else .isFalse (fun hh => h (Except.ok.inj hh))

namespace PhotoEnhancer

/-- Strings of the JavaScript program, modelled as lists of characters. -/
abbrev Str := List Char

/-- Coerce a Lean string literal to the `List Char` model. -/
def str (s : String) : Str := s.data

/-! ### Small string utilities (prefix test, trimming, JS character classes) -/

/-- If `pre` is a prefix of `s`, return the remainder of `s`; else `none`.
This models anchored regex tests such as `/^https:\/\//`. -/
def dropPre : Str → Str → Option Str
  | [], s => some s
  | _ :: _, [] => none
  | a :: as, b :: bs => if a = b then dropPre as bs else none

/-- Boolean prefix test: `hasPre pre s` models `/^pre/.test(s)`. -/
def hasPre (pre s : Str) : Bool := (dropPre pre s).isSome

/-- The character set matched by JavaScript's `\s` (whitespace) class. -/
def isJsWs (c : Char) : Bool :=
  c == ' ' || c == '\t' || c == '\n' || c == '\r' || c == '\x0b' || c == '\x0c' ||
  c.toNat == 0xa0 || c.toNat == 0x1680 ||
  (0x2000 ≤ c.toNat && c.toNat ≤ 0x200a) ||
  c.toNat == 0x2028 || c.toNat == 0x2029 || c.toNat == 0x202f ||
  c.toNat == 0x205f || c.toNat == 0x3000 || c.toNat == 0xfeff

/-- JavaScript line terminators: the characters NOT matched by `.` in a
regex without the `s` flag, and before which `$` (without `m`) cannot match. -/
def isLineTerm (c : Char) : Bool :=
  c == '\n' || c == '\r' || c.toNat == 0x2028 || c.toNat == 0x2029

/-- `String.prototype.trim()`: strip JS whitespace from both ends. -/
def jsTrim (s : Str) : Str :=
  ((s.dropWhile isJsWs).reverse.dropWhile isJsWs).reverse

/-- JavaScript `a || b` on strings: `b` when `a` is the empty string. -/
def jsOrStr (a b : Str) : Str := if a = [] then b else a

/-! ### Locator predicates (`server.js` lines 80-94) -/

/-- `isHttpsUrl`: `/^https:\/\//.test(v)`. -/
def isHttpsUrl (s : Str) : Bool := hasPre (str "https://") s

/-- `isHttpUrl`: `/^https?:\/\//.test(v)` (matches both http and https). -/
def isHttpUrl (s : Str) : Bool := hasPre (str "http://") s || hasPre (str "https://") s

/-- Characters of the regex class `[a-zA-Z0-9.+-]` (media subtype). -/
def isSubtypeChar (c : Char) : Bool :=
  c.isAlpha || c.isDigit || c == '.' || c == '+' || c == '-'

/-- `isDataUrl`: `/^data:image\/[a-zA-Z0-9.+-]+;base64,/.test(v)`.
The subtype run is maximal-munch; since `;` is not in the class, greedy
matching with backtracking coincides with maximal munch. -/
def isDataUrl (s : Str) : Bool :=
  match dropPre (str "data:image/") s with
  | none => false
  | some r =>
    let subty := r.takeWhile isSubtypeChar
    decide (subty ≠ []) && hasPre (str ";base64,") (r.drop subty.length)

/-- `isMntPath`: `/^\/mnt\/data\//.test(v)`. -/
def isMntPath (s : Str) : Bool := hasPre (str "/mnt/data/") s

/-- `ensureHttpsOrEmpty`: keep an https locator, squash anything else to `""`. -/
def ensureHttpsOrEmpty (s : Str) : Str := if isHttpsUrl s then s else []

/-! ### Locator classification (dispatch order of the `enhance_photo`
handler, `server.js` lines 317-344: `/mnt/data/` first, then https,
then data URL, then http, else unsupported). -/

/-- The five locator tags of the specification's data model. -/
inductive LocTag where
  | httpsUrl
  | httpUrl
  | inlineEncoded
  | localStagedPath
  | unsupported
deriving DecidableEq

/-- Pure classification of an input string, in the handler's test order. -/
def classify (s : Str) : LocTag :=
  if isMntPath s then .localStagedPath
  else if isHttpsUrl s then .httpsUrl
  else if isDataUrl s then .inlineEncoded
  else if isHttpUrl s then .httpUrl
  else .unsupported

/-! ### Inline payload decoder (`parseDataUrl`, `server.js` lines 104-132) -/

/-- `guessExtFromMime` (`server.js` lines 96-102). -/
def guessExtFromMime (mime : Str) : Str :=
  if mime = str "image/jpeg" then str ".jpg"
  else if mime = str "image/png" then str ".png"
  else if mime = str "image/webp" then str ".webp"
  else if mime = str "image/gif" then str ".gif"
  else str ".bin"

/-- The 10 MB ceiling `MAX_BYTES` of `parseDataUrl`. -/
def MAX_BYTES : Nat := 10 * 1024 * 1024

/-- Base64 value of a character of the standard alphabet. -/
def b64val (c : Char) : Nat :=
  if 'A' ≤ c ∧ c ≤ 'Z' then c.toNat - 65
  else if 'a' ≤ c ∧ c ≤ 'z' then c.toNat - 97 + 26
  else if '0' ≤ c ∧ c ≤ '9' then c.toNat - 48 + 52
  else if c = '+' then 62
  else 63

/-- Characters of the class `[A-Za-z0-9+/]`. -/
def isB64Char (c : Char) : Bool :=
  c.isAlpha || c.isDigit || c == '+' || c == '/'

/-- Decode a validated base64 string (length a multiple of four, padding
only at the end) to bytes, as `Buffer.from(b64, "base64")` does. -/
def b64DecodeGroups : Str → List Nat
  | a :: b :: c :: d :: rest =>
    if c = '=' then [(b64val a) * 4 + (b64val b) / 16]
    else if d = '=' then
      [(b64val a) * 4 + (b64val b) / 16, (b64val b) % 16 * 16 + (b64val c) / 4]
    else
      ((b64val a) * 4 + (b64val b) / 16) ::
      ((b64val b) % 16 * 16 + (b64val c) / 4) ::
      ((b64val c) % 4 * 64 + b64val d) :: b64DecodeGroups rest
  | _ => []

/-- The cleaning step of `parseDataUrl` (lines 109-111): trim, remove every
JS-whitespace character, then map the URL-safe alphabet characters
(dash to plus, underscore to slash) to the standard alphabet. -/
def urlSafeToStd (c : Char) : Char :=
  if c = '-' then '+' else if c = '_' then '/' else c

/-- Whitespace removal plus alphabet normalization of the payload. -/
def b64clean (p : Str) : Str := (p.filter (fun c => !(isJsWs c))).map urlSafeToStd

/-- The padding re-derivation of `parseDataUrl` (lines 113-116):
`mod 4 = 2` appends `==`, `mod 4 = 3` appends `=`, `mod 4 = 1` fails,
`mod 4 = 0` is left unchanged. -/
def padB64 (b : Str) : Option Str :=
  let m := b.length % 4
  if m = 2 then some (b ++ str "==")
  else if m = 3 then some (b ++ str "=")
  else if m = 1 then none
  else some b

/-- The character-set validation `/^[A-Za-z0-9+/]+={0,2}$/` (line 118). -/
def b64CharsetOk (s : Str) : Bool :=
  let padLen := (s.reverse.takeWhile (· = '=')).length
  let core := s.take (s.length - padLen)
  decide (padLen ≤ 2) && decide (core ≠ []) && core.all isB64Char

/-- The anchored match `/^data:(image\/[a-zA-Z0-9.+-]+);base64,(.*)$/`
(line 105).  In JavaScript, `.` does not match line terminators and `$`
(without the `m` flag) matches only at the very end of the input, so the
match fails whenever the payload contains a line terminator. -/
def dataUrlMatch (s : Str) : Option (Str × Str) :=
  match dropPre (str "data:image/") s with
  | none => none
  | some r =>
    let subty := r.takeWhile isSubtypeChar
    if subty = [] then none
    else
      match dropPre (str ";base64,") (r.drop subty.length) with
      | none => none
      | some payload =>
        if payload.all (fun c => !(isLineTerm c)) then
          some (str "image/" ++ subty, payload)
        else none

/-- The stages of `parseDataUrl` after the match and cleaning: padding
re-derivation, character-set check, decode, emptiness and size checks. -/
def parseB64Tail (mime cleaned : Str) : Except Str (Str × List Nat) :=
  match padB64 cleaned with
  | none => .error (str "Invalid base64 (likely truncated).")
  | some b64 =>
    if b64CharsetOk b64 = false then .error (str "Invalid base64 characters.")
    else
      let buf := b64DecodeGroups b64
      if buf.length = 0 then .error (str "Invalid base64: decoded empty.")
      else if MAX_BYTES < buf.length then
        .error (str "Image too large. Please use a smaller image.")
      else .ok (mime, buf)

/-- `parseDataUrl` (`server.js` lines 104-132): returns the declared mime
type and decoded bytes, or the thrown error message. -/
def parseDataUrl (s : Str) : Except Str (Str × List Nat) :=
  match dataUrlMatch s with
  | none => .error (str "Invalid data URL.")
  | some (mime, payload) => parseB64Tail mime (b64clean payload)

/-- Construct a data URL from a subtype and payload (test-input builder). -/
def mkDataUrl (sub p : Str) : Str :=
  str "data:image/" ++ sub ++ str ";base64," ++ p

/-! ### Content Store (`saveUploadBuffer`, `server.js` lines 134-148, and
the `GET /files` retrieval endpoint, lines 464-496) -/

/-- Default value of `PUBLIC_BASE_URL` (line 22). -/
def PUBLIC_BASE_URL : Str := str "https://hitpaw-photo-enhancer-app.onrender.com"

/-- Default value of `UPLOAD_DIR` (line 30). -/
def UPLOAD_DIR : Str := str "/tmp/uploads"

/-- The basename of a path: the characters after the last slash. -/
def lastComp (p : Str) : Str := (p.reverse.takeWhile (· ≠ '/')).reverse

/-- Node's `path.extname`: the suffix of the basename from its last dot,
empty when there is no dot or the dot is the basename's first character. -/
def extnameOf (p : Str) : Str :=
  let base := lastComp p
  if base = str ".." then []
  else
    let after := base.reverse.takeWhile (· ≠ '.')
    if after.length = base.length then []
    else if base.length = after.length + 1 then []
    else '.' :: after.reverse

/-- The upload directory, as a map from filename to stored bytes
(most recent write first). -/
abbrev Store := List (Str × List Nat)

/-- Filesystem read of a stored file by name. -/
def storeRead : Store → Str → Option (List Nat)
  | [], _ => none
  | (k, v) :: rest, n => if k = n then some v else storeRead rest n

/-- The artifact record returned by `saveUploadBuffer`. -/
structure Saved where
  id : Str
  filename : Str
  filePath : Str
  url : Str
deriving DecidableEq

/-- `saveUploadBuffer(buf, mime, originalName)` (lines 134-148).  The random
hex identifier produced by `crypto.randomBytes(16).toString("hex")` is passed
in as `idHex`.  The extension prefers the original name's extension and
falls back to the mime mapping; the write prepends to the store. -/
def saveUploadBuffer (st : Store) (buf : List Nat) (mime originalName idHex : Str) :
    Store × Saved :=
  let extFromName := extnameOf originalName
  let ext := if extFromName = [] then guessExtFromMime mime else extFromName
  let filename := idHex ++ ext
  let filePath := UPLOAD_DIR ++ str "/" ++ filename
  ((filename, buf) :: st,
   { id := idHex, filename := filename, filePath := filePath
     url := PUBLIC_BASE_URL ++ str "/files/" ++ filename })

/-- The filename shape allow-list of the retrieval endpoint (line 468):
`/^[a-f0-9]{32}\.[a-z0-9]+$/i` — 32 hex characters, a dot, then at least
one alphanumeric character (the `i` flag makes both classes case-blind). -/
def isHexCI (c : Char) : Bool :=
  c.isDigit || ('a' ≤ c && c ≤ 'f') || ('A' ≤ c && c ≤ 'F')

/-- Characters of the class `[a-z0-9]` under the `i` flag. -/
def isAlnumCI (c : Char) : Bool := c.isAlpha || c.isDigit

/-- The retrieval endpoint's filename shape check. -/
def validFilesName (name : Str) : Bool :=
  (name.take 32).all isHexCI && decide ((name.take 32).length = 32) &&
  (match name.drop 32 with
   | '.' :: ext => decide (ext ≠ []) && ext.all isAlnumCI
   | _ => false)

/-- Content type derivation of the retrieval endpoint (lines 479-489). -/
def retrieveMime (ext : Str) : Str :=
  if ext = str ".jpg" ∨ ext = str ".jpeg" then str "image/jpeg"
  else if ext = str ".png" then str "image/png"
  else if ext = str ".webp" then str "image/webp"
  else if ext = str ".gif" then str "image/gif"
  else str "application/octet-stream"

/-- The `GET /files/<filename>` handler (lines 464-496) applied to the
requested name: `none` models the `404 Not Found` reply; a failed shape
check answers before any filesystem access (the store is consulted only
in the `else` branch). -/
def filesRetrieve (st : Store) (name : Str) : Option (List Nat × Str) :=
  if validFilesName name = false then none
  else
    match storeRead st name with
    | none => none
    | some bytes =>
      let filePath := UPLOAD_DIR ++ str "/" ++ name
      some (bytes, retrieveMime ((extnameOf filePath).map Char.toLower))

/-! ### Remote Fetcher (`fetchAndStoreImage`, `server.js` lines 151-161) -/

/-- The observable part of the `fetch` response consumed by
`fetchAndStoreImage`: status flag/code/text, the `content-type` header
(`""` when absent), and the buffered body bytes. -/
structure FetchResp where
  ok : Bool
  status : Nat
  statusText : Str
  contentType : Str
  body : List Nat
deriving DecidableEq

/-- `content-type` parameter stripping: `ct.split(";")[0].trim()`. -/
def mimeFromCT (ct : Str) : Str := jsTrim (ct.takeWhile (· ≠ ';'))

/-- `fetchAndStoreImage(url)` (lines 151-161), with the already-arrived
response passed in.  Checks `resp.ok` and that the content type starts
with `image/`, then stores the body unconditionally — there is no length
validation on this path. -/
def fetchAndStoreImage (st : Store) (resp : FetchResp) (idHex : Str) :
    Except Str (Store × Saved) :=
  if resp.ok = false then
    .error (str "Failed to fetch image: " ++ (Nat.repr resp.status).data ++
            str " " ++ resp.statusText)
  else if hasPre (str "image/") resp.contentType = false then
    .error (str "URL is not an image (content-type: " ++
            (if resp.contentType = [] then str "unknown" else resp.contentType) ++ str ")")
  else
    .ok (saveUploadBuffer st resp.body (mimeFromCT resp.contentType) (str "fetched") idHex)

/-! ### Media Ingestion Orchestrator: normalization step of the
`enhance_photo` handler (`server.js` lines 304-344) -/

/-- Step 1 of the `enhance_photo` handler: turn the input locator into the
`publicUrl` handed to the backend, or an error.  Https inputs are passed
through unchanged; data URLs are decoded and stored; plain http URLs are
fetched and stored; everything else fails. -/
def enhanceResolve (st : Store) (input : Str) (resp : FetchResp) (idHex : Str) :
    Except Str (Store × Str) :=
  if input = [] then
    .error (str "No image_url provided. If the user uploaded an image, call upload_image first, then call enhance_photo with the returned url.")
  else if isMntPath input then
    .error (str "Cannot access /mnt/data/ on a remote server. Call upload_image first to obtain a public https URL.")
  else if isHttpsUrl input then .ok (st, input)
  else if isDataUrl input then
    match parseDataUrl input with
    | .error e => .error e
    | .ok (mime, buf) =>
      let (st', saved) := saveUploadBuffer st buf mime (str "from-data-url") idHex
      .ok (st', saved.url)
  else if isHttpUrl input then
    match fetchAndStoreImage st resp idHex with
    | .error e => .error e
    | .ok (st', saved) => .ok (st', saved.url)
  else .error (str "Unsupported input. Use https URL or data:image base64.")

/-! ### Enhancement Client (`callPhotoProxy`, `server.js` lines 165-181) -/

/-- The nested `data` object of the backend's JSON body. -/
structure ProxyData where
  status : Option Str
  original_url : Option Str
  enhanced_url : Option Str
deriving DecidableEq

/-- The parsed JSON body of the backend response: an optional top-level
`error` field and an optional nested `data` object. -/
structure ProxyBody where
  error : Option Str
  data : Option ProxyData
deriving DecidableEq

/-- The value returned by `callPhotoProxy`. -/
structure ProxyResult where
  status : Str
  originalUrl : Option Str
  enhancedUrl : Option Str
deriving DecidableEq

/-- `callPhotoProxy(imageUrl)` (lines 165-181), with the response's status
flag and parsed body passed in (`none` models a body `JSON.parse` throws
on).  On a 2xx response with parseable JSON it returns the nested fields,
defaulting `status` to `COMPLETED`; the top-level `error` field is never
inspected. -/
def callPhotoProxy (respOk : Bool) (respStatus : Nat) (bodyText : Str)
    (parsed : Option ProxyBody) : Except Str ProxyResult :=
  if respOk = false then
    .error (str "Proxy HTTP error: " ++ (Nat.repr respStatus).data ++ str " " ++ bodyText)
  else
    match parsed with
    | none => .error (str "Unexpected token in JSON")
    | some body =>
      .ok { status := (body.data.bind ProxyData.status).getD (str "COMPLETED")
            originalUrl := body.data.bind ProxyData.original_url
            enhancedUrl := body.data.bind ProxyData.enhanced_url }

/-- The reply assembled by the `enhance_photo` handler (lines 349-357)
through `replyWithResult`. -/
structure ToolReply where
  originalUrl : Str
  enhancedUrl : Str
  status : Str
  message : Str
deriving DecidableEq

/-- Reply shaping of `enhance_photo` on a successful proxy call:
`originalUrl` is `ensureHttpsOrEmpty(originalUrl) || publicUrl` and
`enhancedUrl` is `ensureHttpsOrEmpty(enhancedUrl)`. -/
def enhanceReply (publicUrl : Str) (pr : ProxyResult) : ToolReply :=
  { originalUrl := jsOrStr (ensureHttpsOrEmpty (pr.originalUrl.getD [])) publicUrl
    enhancedUrl := ensureHttpsOrEmpty (pr.enhancedUrl.getD [])
    status := pr.status
    message := if pr.status = str "COMPLETED" then str "Photo enhanced successfully."
               else str "Photo enhance status: " ++ pr.status }

/-! ### Multipart Body Extractor (`parseMultipartSingleFile`,
`server.js` lines 381-407) -/

/-- Index of the first occurrence of `sep` in `s` (JS `String.indexOf`). -/
def findSub (sep : Str) : Str → Option Nat
  | [] => if sep = [] then some 0 else none
  | c :: rest =>
    if hasPre sep (c :: rest) then some 0
    else (findSub sep rest).map (· + 1)

/-- Fueled worker for `splitOnSub`. -/
def splitOnSubGo (sep : Str) : Nat → Str → List Str
  | 0, s => [s]
  | n + 1, s =>
    match findSub sep s with
    | none => [s]
    | some i => s.take i :: splitOnSubGo sep n (s.drop (i + sep.length))

/-- JS `String.split` with a non-empty separator string: the pieces of `s`
between the leftmost non-overlapping occurrences of `sep`.  (The fuel is
adequate because every step consumes at least one character; the handler
always calls this with the non-empty separator `"--" + boundary`.) -/
def splitOnSub (sep s : Str) : List Str := splitOnSubGo sep (s.length + 1) s

/-- First regex match of `name="([^"]+)"` in a header block: scan the
positions left to right; at a position the pattern matches when the
literal `name="` is followed by at least one non-quote character and a
closing quote. -/
def matchFieldName : Str → Option Str
  | [] => none
  | c :: rest =>
    match dropPre (str "name=\"") (c :: rest) with
    | some r =>
      let cap := r.takeWhile (· ≠ '"')
      if cap ≠ [] ∧ cap.length < r.length then some cap else matchFieldName rest
    | none => matchFieldName rest

/-- First regex match of `filename="([^"]*)"`: like `matchFieldName` but
the capture may be empty. -/
def matchFilename : Str → Option Str
  | [] => none
  | c :: rest =>
    match dropPre (str "filename=\"") (c :: rest) with
    | some r =>
      let cap := r.takeWhile (· ≠ '"')
      if cap.length < r.length then some cap else matchFilename rest
    | none => matchFilename rest

/-- Case-insensitive variant of `dropPre` (for the `i` regex flag). -/
def dropPreCI : Str → Str → Option Str
  | [], s => some s
  | _ :: _, [] => none
  | a :: as, b :: bs => if a.toLower = b.toLower then dropPreCI as bs else none

/-- The part after `Content-Type:` matched by `\s*([^\r\n]+)`: greedily
skip whitespace, then capture at least one non-line-break character
(backtracking into the whitespace run when it reaches the end). -/
def ctTail (r : Str) : Option Str :=
  let m := (r.takeWhile isJsWs).length
  if m < r.length then
    some ((r.drop m).takeWhile (fun c => !(c == '\r' || c == '\n')))
  else
    match (r.filter (fun c => !(c == '\r' || c == '\n'))).getLast? with
    | some c => some [c]
    | none => none

/-- First match of `Content-Type:\s*([^\r\n]+)` with the `i` flag. -/
def matchContentType : Str → Option Str
  | [] => none
  | c :: rest =>
    match dropPreCI (str "content-type:") (c :: rest) with
    | some r =>
      match ctTail r with
      | some cap => some cap
      | none => matchContentType rest
    | none => matchContentType rest

/-- The file field extracted from a multipart body. -/
structure MultipartFile where
  filename : Str
  mime : Str
  content : Str
deriving DecidableEq

/-- The per-segment loop of `parseMultipartSingleFile` (lines 386-405):
skip segments without a blank-line separator or whose field name is not
exactly `file`; on a match, take the optional filename and content type
and the body bytes between the header separator and the trailing CRLF. -/
def findFilePart : List Str → Option MultipartFile
  | [] => none
  | raw :: rest =>
    match findSub (str "\r\n\r\n") raw with
    | none => findFilePart rest
    | some headerEnd =>
      let headerStr := raw.take headerEnd
      let content := (raw.take (raw.length - 2)).drop (headerEnd + 4)
      match matchFieldName headerStr with
      | none => findFilePart rest
      | some nm =>
        if nm = str "file" then
          some { filename := jsOrStr ((matchFilename headerStr).getD []) (str "upload")
                 mime := jsOrStr (jsTrim ((matchContentType headerStr).getD []))
                          (str "application/octet-stream")
                 content := content }
        else findFilePart rest

/-- `parseMultipartSingleFile(bodyBuf, boundary)` (lines 381-407): split the
body on `"--" + boundary`, discard the first and last segments
(`.slice(1, -1)`), and return the first matching `file` segment. -/
def parseMultipartSingleFile (body boundary : Str) : Option MultipartFile :=
  let parts := ((splitOnSub (str "--" ++ boundary) body).drop 1).dropLast
  findFilePart parts

/-- Lower-case hex digits, the alphabet of
`crypto.randomBytes(16).toString("hex")`. -/
def isLowerHex (c : Char) : Bool := c.isDigit || ('a' ≤ c && c ≤ 'f')

/-! ### Helper lemmas -/

/-- Dropping a prefix off itself followed by anything returns the rest. -/
lemma dropPre_self_append (pre rest : Str) : dropPre pre (pre ++ rest) = some rest := by
  induction pre with
  | nil => rfl
  | cons a as ih => simp [dropPre, ih]

/-- A string with a non-empty prefix shares that prefix's head. -/
lemma hasPre_head (pre s : Str) (h : hasPre pre s = true) (hpre : pre ≠ []) :
    s.head? = pre.head? := by
  match pre, s with
  | [], _ => exact absurd rfl hpre
  | a :: as, [] => simp [hasPre, dropPre] at h
  | a :: as, b :: bs =>
    simp only [hasPre, dropPre] at h
    by_cases hab : a = b
    · simp [hab]
    · simp [hab] at h

/-- A string with a non-empty prefix is non-empty. -/
lemma ne_nil_of_hasPre (pre s : Str) (h : hasPre pre s = true) (hpre : pre ≠ []) :
    s ≠ [] := by
  intro hs
  subst hs
  have := hasPre_head pre [] h hpre
  match pre, this with
  | a :: as, hh => simp at hh

/-- Two anchored prefix tests with different first characters cannot both
succeed on the same string. -/
lemma hasPre_disjoint (p q s : Str) (hp : hasPre p s = true) (hq : hasPre q s = true)
    (hpq : p.head? ≠ q.head?) (hp0 : p ≠ []) (hq0 : q ≠ []) : False :=
  hpq ((hasPre_head p s hp hp0).symm.trans (hasPre_head q s hq hq0))

/-- An http or https URL starts with the letter `h`. -/
lemma isHttpUrl_head (s : Str) (h : isHttpUrl s = true) : s.head? = some 'h' := by
  simp only [isHttpUrl, Bool.or_eq_true] at h
  rcases h with h | h
  · rw [hasPre_head _ _ h (by decide)]; decide
  · rw [hasPre_head _ _ h (by decide)]; decide

/-- An https URL starts with the letter `h`. -/
lemma isHttpsUrl_head (s : Str) (h : isHttpsUrl s = true) : s.head? = some 'h' := by
  rw [hasPre_head _ _ h (by decide)]; decide

/-- A data URL starts with the letter `d`. -/
lemma isDataUrl_head (s : Str) (h : isDataUrl s = true) : s.head? = some 'd' := by
  unfold isDataUrl at h
  cases hd : dropPre (str "data:image/") s with
  | none => rw [hd] at h; simp at h
  | some r =>
    have hp : hasPre (str "data:image/") s = true := by simp [hasPre, hd]
    rw [hasPre_head _ _ hp (by decide)]; decide

/-- A sandbox path starts with a slash. -/
lemma isMntPath_head (s : Str) (h : isMntPath s = true) : s.head? = some '/' := by
  rw [hasPre_head _ _ h (by decide)]; decide

/-- An https URL is an http(s) URL. -/
lemma isHttpUrl_of_isHttpsUrl (s : Str) (h : isHttpsUrl s = true) : isHttpUrl s = true := by
  simp [isHttpUrl, isHttpsUrl] at *
  exact Or.inr h

/-- A sandbox path is not an https URL. -/
lemma not_https_of_mnt (s : Str) (h : isMntPath s = true) : isHttpsUrl s = false := by
  cases hh : isHttpsUrl s with
  | false => rfl
  | true =>
    exact absurd ((isMntPath_head s h).symm.trans (isHttpsUrl_head s hh)) (by decide)

/-- A sandbox path is not an http(s) URL. -/
lemma not_http_of_mnt (s : Str) (h : isMntPath s = true) : isHttpUrl s = false := by
  cases hh : isHttpUrl s with
  | false => rfl
  | true =>
    exact absurd ((isMntPath_head s h).symm.trans (isHttpUrl_head s hh)) (by decide)

/-- A sandbox path is not a data URL. -/
lemma not_data_of_mnt (s : Str) (h : isMntPath s = true) : isDataUrl s = false := by
  cases hh : isDataUrl s with
  | false => rfl
  | true =>
    exact absurd ((isMntPath_head s h).symm.trans (isDataUrl_head s hh)) (by decide)

/-- An https URL is not a data URL. -/
lemma not_data_of_https (s : Str) (h : isHttpsUrl s = true) : isDataUrl s = false := by
  cases hh : isDataUrl s with
  | false => rfl
  | true =>
    exact absurd ((isHttpsUrl_head s h).symm.trans (isDataUrl_head s hh)) (by decide)

/-- An http(s) URL is not a data URL. -/
lemma not_data_of_http (s : Str) (h : isHttpUrl s = true) : isDataUrl s = false := by
  cases hh : isDataUrl s with
  | false => rfl
  | true =>
    exact absurd ((isHttpUrl_head s h).symm.trans (isDataUrl_head s hh)) (by decide)

/-- An https URL is non-empty. -/
lemma ne_nil_of_https (s : Str) (h : isHttpsUrl s = true) : s ≠ [] :=
  ne_nil_of_hasPre _ s h (by decide)

/-- An http(s) URL is non-empty. -/
lemma ne_nil_of_http (s : Str) (h : isHttpUrl s = true) : s ≠ [] := by
  intro hs
  subst hs
  exact absurd h (by decide)

/-- `takeWhile` runs through a block that satisfies the predicate. -/
lemma takeWhile_all_append (p : Char → Bool) (l₁ l₂ : Str) (h : ∀ a ∈ l₁, p a = true) :
    (l₁ ++ l₂).takeWhile p = l₁ ++ l₂.takeWhile p := by
  induction l₁ with
  | nil => rfl
  | cons a as ih =>
    simp only [List.cons_append, List.takeWhile_cons, h a (by simp), if_true]
    rw [ih (fun x hx => h x (by simp [hx]))]

/-- Lower-case hex digits pass the case-insensitive hex class. -/
lemma isHexCI_of_isLowerHex (c : Char) (h : isLowerHex c = true) : isHexCI c = true := by
  simp only [isLowerHex, Bool.or_eq_true] at h
  simp only [isHexCI, Bool.or_eq_true]
  tauto

/-- Dropping the head and the last element of a list with at most two
elements leaves nothing. -/
lemma drop_one_dropLast_nil (l : List Str) (h : l.length ≤ 2) : (l.drop 1).dropLast = [] := by
  match l with
  | [] => rfl
  | [a] => rfl
  | [a, b] => rfl
  | a :: b :: c :: t => simp at h

/-- Structure of the anchored data-URL match on a well-shaped input built
from a subtype and a payload: the match succeeds exactly when the payload
has no line terminator, and then captures the mime and the payload. -/
lemma dataUrlMatch_mk (sub p : Str) (h1 : sub ≠ []) (h2 : sub.all isSubtypeChar = true) :
    dataUrlMatch (mkDataUrl sub p) =
      if p.all (fun c => !(isLineTerm c)) then some (str "image/" ++ sub, p) else none := by
  unfold dataUrlMatch mkDataUrl
  rw [List.append_assoc, List.append_assoc, dropPre_self_append]
  have hsemi : (str ";base64," ++ p) = ';' :: (str "base64," ++ p) := rfl
  have hsub : (sub ++ (str ";base64," ++ p)).takeWhile isSubtypeChar = sub := by
    rw [takeWhile_all_append _ _ _ (by intro a ha; exact (List.all_eq_true.mp h2) a ha)]
    rw [hsemi]
    simp [List.takeWhile_cons, isSubtypeChar]
  simp only [hsub]
  rw [if_neg h1]
  have hdrop : (sub ++ (str ";base64," ++ p)).drop sub.length = str ";base64," ++ p :=
    List.drop_left sub _
  rw [hdrop, dropPre_self_append]

/-- On a well-shaped input without line terminators, `parseDataUrl` is the
post-match pipeline applied to the cleaned payload. -/
lemma parseDataUrl_mk (sub p : Str) (h1 : sub ≠ []) (h2 : sub.all isSubtypeChar = true)
    (h3 : p.all (fun c => !(isLineTerm c)) = true) :
    parseDataUrl (mkDataUrl sub p) = parseB64Tail (str "image/" ++ sub) (b64clean p) := by
  unfold parseDataUrl
  rw [dataUrlMatch_mk sub p h1 h2]
  simp [h3]

/-- Cleaning leaves a payload without whitespace or URL-safe characters
unchanged. -/
lemma b64clean_eq_self (p : Str)
    (h : ∀ c ∈ p, isJsWs c = false ∧ c ≠ '-' ∧ c ≠ '_') : b64clean p = p := by
  induction p with
  | nil => rfl
  | cons c cs ih =>
    have hc := h c (by simp)
    have hcs := ih (fun x hx => h x (by simp [hx]))
    unfold b64clean at hcs ⊢
    simp only [List.filter_cons, hc.1, Bool.not_false, List.map_cons, hcs]
    simp [urlSafeToStd, hc.2.1, hc.2.2, hcs]

/-- An identifier of 32 lower-case hex digits followed by a dot-extension
passes the retrieval endpoint's shape check. -/
lemma validFilesName_concat (idHex ext : Str) (h1 : idHex.length = 32)
    (h2 : idHex.all isLowerHex = true)
    (h3 : (match ext with
           | '.' :: r => decide (r ≠ []) && r.all isAlnumCI
           | _ => false) = true) :
    validFilesName (idHex ++ ext) = true := by
  unfold validFilesName
  have ht : (idHex ++ ext).take 32 = idHex := by rw [← h1]; exact List.take_left idHex ext
  have hd : (idHex ++ ext).drop 32 = ext := by rw [← h1]; exact List.drop_left idHex ext
  rw [ht, hd, h1]
  have hhex : idHex.all isHexCI = true := by
    rw [List.all_eq_true] at h2 ⊢
    exact fun c hc => isHexCI_of_isLowerHex c (h2 c hc)
  rw [Bool.and_eq_true, Bool.and_eq_true]
  exact ⟨⟨hhex, by decide⟩, h3⟩

/-- The mime-derived extension always passes the shape check's tail. -/
lemma validFilesName_guessExt (idHex mime : Str) (h1 : idHex.length = 32)
    (h2 : idHex.all isLowerHex = true) :
    validFilesName (idHex ++ guessExtFromMime mime) = true := by
  unfold guessExtFromMime
  split_ifs <;> exact validFilesName_concat idHex _ h1 h2 (by decide)

/-! ### Claims -/

/-- Claim C1: round-trip of the Content Store.  Storing a non-empty byte
buffer within the size ceiling under any image media type through
`saveUploadBuffer` and then requesting the resulting artifact's filename
through the `GET /files` retrieval endpoint returns exactly those bytes. -/
theorem claim_c1_store_roundtrip (st : Store) (B : List Nat) (mime idHex : Str)
    (_hpos : 0 < B.length) (_hmax : B.length ≤ MAX_BYTES)
    (hlen : idHex.length = 32) (hhex : idHex.all isLowerHex = true) :
    (filesRetrieve (saveUploadBuffer st B mime (str "upload") idHex).1
        (saveUploadBuffer st B mime (str "upload") idHex).2.filename).map Prod.fst
      = some B := by
  have hext : extnameOf (str "upload") = [] := by decide
  have hsave : saveUploadBuffer st B mime (str "upload") idHex =
      ((idHex ++ guessExtFromMime mime, B) :: st,
       { id := idHex, filename := idHex ++ guessExtFromMime mime,
         filePath := UPLOAD_DIR ++ str "/" ++ (idHex ++ guessExtFromMime mime),
         url := PUBLIC_BASE_URL ++ str "/files/" ++ (idHex ++ guessExtFromMime mime) }) := by
    unfold saveUploadBuffer
    rw [hext]
    rfl
  rw [hsave]
  unfold filesRetrieve
  rw [validFilesName_guessExt idHex mime hlen hhex]
  simp [storeRead]

/-- Claim C1 witness: a concrete three-byte PNG-typed store round-trip. -/
theorem claim_c1_store_roundtrip_witness :
    (filesRetrieve
        (saveUploadBuffer [] [1, 2, 3] (str "image/png") (str "upload")
          (str "aaaaaaaaaaaaaaaaaaaaaaaaaaaaaaaa")).1
        (saveUploadBuffer [] [1, 2, 3] (str "image/png") (str "upload")
          (str "aaaaaaaaaaaaaaaaaaaaaaaaaaaaaaaa")).2.filename).map Prod.fst
      = some [1, 2, 3] :=
  claim_c1_store_roundtrip [] [1, 2, 3] (str "image/png")
    (str "aaaaaaaaaaaaaaaaaaaaaaaaaaaaaaaa") (by decide) (by decide) (by decide) (by decide)

/-- Claim C2: locator classification is total and deterministic.  The empty
string classifies as unsupported, and for every string the assigned tag is
characterized by the first-match precedence over the four anchored
predicates (https wins over http; the predicates for the sandbox path,
data URLs and http(s) URLs are mutually exclusive, so the code's test
order realizes the specified precedence). -/
theorem claim_c2_classify_total :
    classify (str "") = LocTag.unsupported ∧
    ∀ s : Str,
      (classify s = LocTag.localStagedPath ↔ isMntPath s = true) ∧
      (classify s = LocTag.httpsUrl ↔ isHttpsUrl s = true) ∧
      (classify s = LocTag.inlineEncoded ↔ isDataUrl s = true) ∧
      (classify s = LocTag.httpUrl ↔ (isHttpUrl s = true ∧ isHttpsUrl s = false)) ∧
      (classify s = LocTag.unsupported ↔
        (isMntPath s = false ∧ isDataUrl s = false ∧ isHttpUrl s = false)) := by
  refine ⟨by decide, fun s => ?_⟩
  by_cases hm : isMntPath s = true
  · have h1 := not_https_of_mnt s hm
    have h2 := not_data_of_mnt s hm
    have h3 := not_http_of_mnt s hm
    simp [classify, hm, h1, h2, h3]
  · have hm' : isMntPath s = false := by revert hm; cases isMntPath s <;> simp
    by_cases hs : isHttpsUrl s = true
    · have h2 := not_data_of_https s hs
      have h3 := isHttpUrl_of_isHttpsUrl s hs
      simp [classify, hm', hs, h2, h3]
    · have hs' : isHttpsUrl s = false := by revert hs; cases isHttpsUrl s <;> simp
      by_cases hd : isDataUrl s = true
      · have h3 : isHttpUrl s = false := by
          cases hh : isHttpUrl s with
          | false => rfl
          | true => rw [not_data_of_http s hh] at hd; exact absurd hd (by decide)
        simp [classify, hm', hs', hd, h3]
      · have hd' : isDataUrl s = false := by revert hd; cases isDataUrl s <;> simp
        by_cases hh : isHttpUrl s = true
        · simp [classify, hm', hs', hd', hh]
        · have hh' : isHttpUrl s = false := by revert hh; cases isHttpUrl s <;> simp
          simp [classify, hm', hs', hd', hh']

/-- Claim C4: retrieval safety.  A requested name failing the strict shape
check is answered `NotFound` with no filesystem access: the result is
`none` and is independent of the store's contents. -/
theorem claim_c4_retrieval_guard (name : Str) (st st' : Store)
    (h : validFilesName name = false) :
    filesRetrieve st name = none ∧ filesRetrieve st name = filesRetrieve st' name := by
  unfold filesRetrieve
  rw [h]
  simp

/-- Claim C4 witness: a traversal name is refused even when an entry under
that exact name is present in the store. -/
theorem claim_c4_retrieval_guard_witness :
    filesRetrieve [(str "../etc/passwd", [7])] (str "../etc/passwd") = none ∧
    filesRetrieve [(str "../etc/passwd", [7])] (str "../etc/passwd") =
      filesRetrieve [] (str "../etc/passwd") :=
  claim_c4_retrieval_guard (str "../etc/passwd") [(str "../etc/passwd", [7])] [] (by decide)

/-- Claim C10 counterexample: a multipart body that contains a well-formed
`file` segment and is NOT terminated by the trailing boundary delimiter,
but whose file segment is followed by a further segment — the extractor
finds the file instead of reporting none, refuting the universally
quantified claim. -/
theorem claim_c10_counterexample :
    parseMultipartSingleFile
      (str "--B\r\nContent-Disposition: form-data; name=\"file\"; filename=\"a.png\"\r\nContent-Type: image/png\r\n\r\nDATA\r\n--B\r\nContent-Disposition: form-data; name=\"note\"\r\n\r\nhello")
      (str "B")
      = some { filename := str "a.png", mime := str "image/png", content := str "DATA" } := by
  decide

/-- Claim C10 (amended): the split on the boundary discards the first and
last segments unconditionally, so every body with at most one boundary
occurrence — in particular a body whose only (file) segment is final
because the trailing delimiter is missing — yields no file. -/
theorem claim_c10_multipart_discard (body boundary : Str)
    (h : (splitOnSub (str "--" ++ boundary) body).length ≤ 2) :
    parseMultipartSingleFile body boundary = none := by
  show findFilePart (((splitOnSub (str "--" ++ boundary) body).drop 1).dropLast) = none
  rw [drop_one_dropLast_nil _ h]
  rfl

/-- Claim C10 witness: an unterminated single-file-part body yields none. -/
theorem claim_c10_multipart_discard_witness :
    parseMultipartSingleFile
      (str "--B\r\nContent-Disposition: form-data; name=\"file\"; filename=\"a.png\"\r\nContent-Type: image/png\r\n\r\nDATA")
      (str "B") = none :=
  claim_c10_multipart_discard _ _ (by decide)

/-- Line terminators are JS whitespace. -/
lemma jsWs_of_lineTerm (c : Char) (h : isLineTerm c = true) : isJsWs c = true := by
  simp only [isLineTerm, Bool.or_eq_true] at h
  simp only [isJsWs, Bool.or_eq_true]
  tauto

/-- Reading back the very artifact just written yields the written bytes. -/
lemma storeRead_saveUploadBuffer (st : Store) (buf : List Nat) (mime name idHex : Str) :
    storeRead (saveUploadBuffer st buf mime name idHex).1
      (saveUploadBuffer st buf mime name idHex).2.filename = some buf := by
  unfold saveUploadBuffer storeRead
  simp

/-- Claim C3 counterexample: an input that is already a public https URL is
handed to the backend unchanged — the orchestrator does not fetch it, does
not store a local copy (the store stays empty), and the locator is not of
the `<base>/files/` form. -/
theorem claim_c3_counterexample :
    enhanceResolve [] (str "https://example.com/cat.jpg")
        { ok := true, status := 200, statusText := str "OK",
          contentType := str "image/jpeg", body := [9] }
        (str "aaaaaaaaaaaaaaaaaaaaaaaaaaaaaaaa")
      = .ok ([], str "https://example.com/cat.jpg") ∧
    hasPre (PUBLIC_BASE_URL ++ str "/files/") (str "https://example.com/cat.jpg") = false := by
  decide

/-- Claim C3 (amended): only plain-http inputs are re-hosted — the
orchestrator fetches them and hands the backend a `<base>/files/<id><ext>`
locator built from this server's base URL; an input that is already https
is passed through verbatim without storing a local copy. -/
theorem claim_c3_amended :
    (∀ (st : Store) (input : Str) (resp : FetchResp) (idHex : Str),
        isHttpUrl input = true → isHttpsUrl input = false →
        resp.ok = true → hasPre (str "image/") resp.contentType = true →
        (enhanceResolve st input resp idHex).map Prod.snd =
          .ok (PUBLIC_BASE_URL ++ str "/files/" ++
               (idHex ++ guessExtFromMime (mimeFromCT resp.contentType)))) ∧
    (∀ (st : Store) (input : Str) (resp : FetchResp) (idHex : Str),
        isMntPath input = false → isHttpsUrl input = true →
        (enhanceResolve st input resp idHex).map Prod.snd = Except.ok input) := by
  constructor
  · intro st input resp idHex h1 h2 h3 h4
    have hne : input ≠ [] := ne_nil_of_http input h1
    have hmnt : isMntPath input = false := by
      cases hmm : isMntPath input with
      | false => rfl
      | true => rw [not_http_of_mnt input hmm] at h1; exact absurd h1 (by decide)
    have hdata : isDataUrl input = false := not_data_of_http input h1
    have hfetched : extnameOf (str "fetched") = [] := by decide
    simp only [enhanceResolve, hne, hmnt, h2, hdata, h1, if_false, if_true,
      Bool.false_eq_true, reduceIte]
    simp only [fetchAndStoreImage, h3, h4, Bool.true_eq_false, reduceIte]
    simp [saveUploadBuffer, hfetched, Except.map]
  · intro st input resp idHex h1 h2
    have hne : input ≠ [] := ne_nil_of_https input h2
    simp [enhanceResolve, hne, h1, h2, Except.map]

/-- Claim C3 witness: a plain-http input is re-hosted under the base URL;
an https input is passed through. -/
theorem claim_c3_amended_witness :
    ((enhanceResolve [] (str "http://example.com/cat.jpg")
        { ok := true, status := 200, statusText := str "OK",
          contentType := str "image/jpeg", body := [9] }
        (str "aaaaaaaaaaaaaaaaaaaaaaaaaaaaaaaa")).map Prod.snd =
      .ok (PUBLIC_BASE_URL ++ str "/files/" ++
           (str "aaaaaaaaaaaaaaaaaaaaaaaaaaaaaaaa" ++
            guessExtFromMime (mimeFromCT (str "image/jpeg"))))) ∧
    ((enhanceResolve [] (str "https://example.com/cat.jpg")
        { ok := true, status := 200, statusText := str "OK",
          contentType := str "image/jpeg", body := [9] }
        (str "aaaaaaaaaaaaaaaaaaaaaaaaaaaaaaaa")).map Prod.snd =
      Except.ok (str "https://example.com/cat.jpg")) :=
  ⟨claim_c3_amended.1 [] (str "http://example.com/cat.jpg")
      { ok := true, status := 200, statusText := str "OK",
        contentType := str "image/jpeg", body := [9] }
      (str "aaaaaaaaaaaaaaaaaaaaaaaaaaaaaaaa") (by decide) (by decide) rfl (by decide),
   claim_c3_amended.2 [] (str "https://example.com/cat.jpg")
      { ok := true, status := 200, statusText := str "OK",
        contentType := str "image/jpeg", body := [9] }
      (str "aaaaaaaaaaaaaaaaaaaaaaaaaaaaaaaa") (by decide) (by decide)⟩

/-- Claim C5 counterexample: the remote-fetch ingestion path stores an
artifact with zero bytes — an image response with an empty body passes the
`ok` and content-type checks and is written as is, violating the claimed
`0 < length` invariant. -/
theorem claim_c5_counterexample :
    fetchAndStoreImage []
        { ok := true, status := 200, statusText := str "OK",
          contentType := str "image/png", body := [] }
        (str "aaaaaaaaaaaaaaaaaaaaaaaaaaaaaaaa")
      = .ok ([(str "aaaaaaaaaaaaaaaaaaaaaaaaaaaaaaaa.png", [])],
         { id := str "aaaaaaaaaaaaaaaaaaaaaaaaaaaaaaaa",
           filename := str "aaaaaaaaaaaaaaaaaaaaaaaaaaaaaaaa.png",
           filePath := str "/tmp/uploads/aaaaaaaaaaaaaaaaaaaaaaaaaaaaaaaa.png",
           url := str "https://hitpaw-photo-enhancer-app.onrender.com/files/aaaaaaaaaaaaaaaaaaaaaaaaaaaaaaaa.png" }) ∧
    ¬ 0 < ([] : List Nat).length := by
  decide

/-- Claim C5 (amended): only the inline-decode path enforces the stored
bytes invariant `0 < length ≤ MAX_BYTES`; the remote-fetch path stores the
response body exactly as received, with no length validation at all. -/
theorem claim_c5_amended :
    (∀ (s mime : Str) (buf : List Nat), parseDataUrl s = .ok (mime, buf) →
        0 < buf.length ∧ buf.length ≤ MAX_BYTES) ∧
    (∀ (st : Store) (resp : FetchResp) (idHex : Str) (st' : Store) (saved : Saved),
        fetchAndStoreImage st resp idHex = .ok (st', saved) →
        storeRead st' saved.filename = some resp.body) := by
  constructor
  · intro s mime buf h
    cases hm : dataUrlMatch s with
    | none =>
      simp only [parseDataUrl, hm] at h
      exact Except.noConfusion h
    | some mp =>
      obtain ⟨m, payload⟩ := mp
      simp only [parseDataUrl, hm] at h
      cases hp : padB64 (b64clean payload) with
      | none =>
        simp only [parseB64Tail, hp] at h
        exact Except.noConfusion h
      | some b64 =>
        simp only [parseB64Tail, hp] at h
        split_ifs at h with hcs hz hmx
        all_goals
          first
          | exact Except.noConfusion h
          | (have h' : (m, b64DecodeGroups b64) = (mime, buf) := by
               first
               | exact h
               | exact Except.ok.inj h
             have hb : b64DecodeGroups b64 = buf := congrArg Prod.snd h'
             rw [← hb]
             unfold MAX_BYTES at *
             omega)
  · intro st resp idHex st' saved h
    unfold fetchAndStoreImage at h
    split_ifs at h with hok hct
    all_goals
      first
      | exact Except.noConfusion h
      | (have h' : saveUploadBuffer st resp.body (mimeFromCT resp.contentType)
             (str "fetched") idHex = (st', saved) := by
           first
           | exact h
           | exact Except.ok.inj h
         have hst : (saveUploadBuffer st resp.body (mimeFromCT resp.contentType)
             (str "fetched") idHex).1 = st' := congrArg Prod.fst h'
         have hsv : (saveUploadBuffer st resp.body (mimeFromCT resp.contentType)
             (str "fetched") idHex).2 = saved := congrArg Prod.snd h'
         rw [← hst, ← hsv]
         exact storeRead_saveUploadBuffer st resp.body (mimeFromCT resp.contentType)
           (str "fetched") idHex)

/-- Claim C5 witness: a concrete inline decode respects the bounds, and a
concrete remote fetch stores the received body unchanged. -/
theorem claim_c5_amended_witness :
    (0 < ([65, 66, 67] : List Nat).length ∧
     ([65, 66, 67] : List Nat).length ≤ MAX_BYTES) ∧
    storeRead [(str "aaaaaaaaaaaaaaaaaaaaaaaaaaaaaaaa.png", [9])]
        (Saved.filename
          { id := str "aaaaaaaaaaaaaaaaaaaaaaaaaaaaaaaa",
            filename := str "aaaaaaaaaaaaaaaaaaaaaaaaaaaaaaaa.png",
            filePath := str "/tmp/uploads/aaaaaaaaaaaaaaaaaaaaaaaaaaaaaaaa.png",
            url := str "https://hitpaw-photo-enhancer-app.onrender.com/files/aaaaaaaaaaaaaaaaaaaaaaaaaaaaaaaa.png" })
      = some [9] :=
  ⟨claim_c5_amended.1 (str "data:image/png;base64,QUJD") (str "image/png") [65, 66, 67]
      (by decide),
   claim_c5_amended.2 []
      { ok := true, status := 200, statusText := str "OK",
        contentType := str "image/png", body := [9] }
      (str "aaaaaaaaaaaaaaaaaaaaaaaaaaaaaaaa")
      [(str "aaaaaaaaaaaaaaaaaaaaaaaaaaaaaaaa.png", [9])]
      { id := str "aaaaaaaaaaaaaaaaaaaaaaaaaaaaaaaa",
        filename := str "aaaaaaaaaaaaaaaaaaaaaaaaaaaaaaaa.png",
        filePath := str "/tmp/uploads/aaaaaaaaaaaaaaaaaaaaaaaaaaaaaaaa.png",
        url := str "https://hitpaw-photo-enhancer-app.onrender.com/files/aaaaaaaaaaaaaaaaaaaaaaaaaaaaaaaa.png" }
      (by decide)⟩

/-- Claim C6 counterexample: a non-https `original_url` from the backend is
NOT surfaced as the empty string — the reply falls back to the locally
derived public URL instead. -/
theorem claim_c6_counterexample :
    (enhanceReply
        (str "https://hitpaw-photo-enhancer-app.onrender.com/files/aaaaaaaaaaaaaaaaaaaaaaaaaaaaaaaa.png")
        { status := str "COMPLETED", originalUrl := some (str "http://insecure"),
          enhancedUrl := none }).originalUrl
      = str "https://hitpaw-photo-enhancer-app.onrender.com/files/aaaaaaaaaaaaaaaaaaaaaaaaaaaaaaaa.png" ∧
    str "https://hitpaw-photo-enhancer-app.onrender.com/files/aaaaaaaaaaaaaaaaaaaaaaaaaaaaaaaa.png"
      ≠ str "" := by
  decide

/-- Claim C6 (amended): a non-https `enhanced_url` is surfaced as the empty
string; a non-https `original_url` is discarded and replaced by the
locally derived `publicUrl`; and whenever `publicUrl` is https (as in
every success path of the handler), the surfaced `originalUrl` is https
and the surfaced `enhancedUrl` is https or empty. -/
theorem claim_c6_amended :
    (∀ (pub : Str) (pr : ProxyResult),
        isHttpsUrl (pr.enhancedUrl.getD []) = false → (enhanceReply pub pr).enhancedUrl = []) ∧
    (∀ (pub : Str) (pr : ProxyResult),
        isHttpsUrl (pr.originalUrl.getD []) = false → (enhanceReply pub pr).originalUrl = pub) ∧
    (∀ (pub : Str) (pr : ProxyResult), isHttpsUrl pub = true →
        isHttpsUrl (enhanceReply pub pr).originalUrl = true ∧
        ((enhanceReply pub pr).enhancedUrl = [] ∨
         isHttpsUrl (enhanceReply pub pr).enhancedUrl = true)) := by
  refine ⟨?_, ?_, ?_⟩
  · intro pub pr h
    simp [enhanceReply, ensureHttpsOrEmpty, h]
  · intro pub pr h
    simp [enhanceReply, ensureHttpsOrEmpty, jsOrStr, h]
  · intro pub pr h
    constructor
    · by_cases ho : isHttpsUrl (pr.originalUrl.getD []) = true
      · have hne := ne_nil_of_https _ ho
        simp [enhanceReply, ensureHttpsOrEmpty, jsOrStr, ho, hne]
      · have ho' : isHttpsUrl (pr.originalUrl.getD []) = false := by
          revert ho; cases isHttpsUrl (pr.originalUrl.getD []) <;> simp
        simp [enhanceReply, ensureHttpsOrEmpty, jsOrStr, ho', h]
    · by_cases he : isHttpsUrl (pr.enhancedUrl.getD []) = true
      · right; simp [enhanceReply, ensureHttpsOrEmpty, he]
      · have he' : isHttpsUrl (pr.enhancedUrl.getD []) = false := by
          revert he; cases isHttpsUrl (pr.enhancedUrl.getD []) <;> simp
        left; simp [enhanceReply, ensureHttpsOrEmpty, he']

/-- Claim C6 witness: concrete instances of the three amended statements. -/
theorem claim_c6_amended_witness :
    (enhanceReply (str "https://base/x.png")
        { status := str "COMPLETED", originalUrl := none,
          enhancedUrl := some (str "http://insecure") }).enhancedUrl = [] ∧
    (enhanceReply (str "https://base/x.png")
        { status := str "COMPLETED", originalUrl := some (str "http://insecure"),
          enhancedUrl := none }).originalUrl = str "https://base/x.png" ∧
    isHttpsUrl (enhanceReply (str "https://base/x.png")
        { status := str "COMPLETED", originalUrl := some (str "http://insecure"),
          enhancedUrl := none }).originalUrl = true :=
  ⟨claim_c6_amended.1 (str "https://base/x.png")
      { status := str "COMPLETED", originalUrl := none,
        enhancedUrl := some (str "http://insecure") } (by decide),
   claim_c6_amended.2.1 (str "https://base/x.png")
      { status := str "COMPLETED", originalUrl := some (str "http://insecure"),
        enhancedUrl := none } (by decide),
   (claim_c6_amended.2.2 (str "https://base/x.png")
      { status := str "COMPLETED", originalUrl := some (str "http://insecure"),
        enhancedUrl := none } (by decide)).1⟩

/-- Claim C7 counterexample: removing one trailing character from a valid
four-character payload leaves remainder three, which is re-padded and
accepted (decoding to a shorter byte sequence) instead of being rejected. -/
theorem claim_c7_counterexample :
    parseDataUrl (str "data:image/png;base64,QUJD") = .ok (str "image/png", [65, 66, 67]) ∧
    parseDataUrl (str "data:image/png;base64,QUJ") = .ok (str "image/png", [65, 66]) := by
  decide

/-- Claim C7 (amended): the padding re-derivation appends two pad characters
at remainder two, one at remainder three, none at remainder zero, and fails
with the truncated-payload error at remainder one; hence only a removal that
leaves remainder one (e.g. from an unpadded remainder-two payload) is
rejected — removing one character from a remainder-zero payload leaves
remainder three and is re-padded and accepted. -/
theorem claim_c7_amended :
    (∀ b : Str, b.length % 4 = 2 → padB64 b = some (b ++ str "==")) ∧
    (∀ b : Str, b.length % 4 = 3 → padB64 b = some (b ++ str "=")) ∧
    (∀ b : Str, b.length % 4 = 0 → padB64 b = some b) ∧
    (∀ sub p : Str, sub ≠ [] → sub.all isSubtypeChar = true →
        (∀ c ∈ p, isJsWs c = false ∧ c ≠ '-' ∧ c ≠ '_') → p.length % 4 = 1 →
        parseDataUrl (mkDataUrl sub p) = .error (str "Invalid base64 (likely truncated).")) := by
  refine ⟨?_, ?_, ?_, ?_⟩
  · intro b h; simp [padB64, h]
  · intro b h; simp [padB64, h]
  · intro b h; simp [padB64, h]
  · intro sub p h1 h2 h3 h4
    have hnl : p.all (fun c => !(isLineTerm c)) = true := by
      rw [List.all_eq_true]
      intro c hc
      cases hl : isLineTerm c with
      | false => simp
      | true =>
        have := jsWs_of_lineTerm c hl
        rw [(h3 c hc).1] at this
        exact absurd this (by decide)
    rw [parseDataUrl_mk sub p h1 h2 hnl, b64clean_eq_self p h3]
    simp [parseB64Tail, padB64, h4]

/-- Claim C7 witness: remainder-two padding on a concrete payload, and the
truncated-payload failure at a concrete remainder-one payload. -/
theorem claim_c7_amended_witness :
    padB64 (str "QQ") = some (str "QQ" ++ str "==") ∧
    parseDataUrl (mkDataUrl (str "png") (str "QQQQQ"))
      = .error (str "Invalid base64 (likely truncated).") :=
  ⟨claim_c7_amended.1 (str "QQ") (by decide),
   claim_c7_amended.2.2.2 (str "png") (str "QQQQQ") (by decide) (by decide)
     (by decide) (by decide)⟩

/-- Claim C8 counterexample: a 2xx backend response whose JSON body carries
an explicit error field and no data object yields a SUCCESS result with the
defaulted `COMPLETED` status — the client does not fail with a
backend-reported error. -/
theorem claim_c8_counterexample :
    callPhotoProxy true 200 (str "irrelevant")
        (some { error := some (str "backend failure"), data := none })
      = .ok { status := str "COMPLETED", originalUrl := none, enhancedUrl := none } := by
  decide

/-- Claim C8 (amended): `callPhotoProxy` never inspects the top-level error
field: every 2xx response with parseable JSON — whatever its error field —
produces a success result, and with no data object the status defaults to
`COMPLETED`. -/
theorem claim_c8_amended :
    (∀ (n : Nat) (t : Str) (b : ProxyBody),
        (callPhotoProxy true n t (some b)).isOk = true) ∧
    (∀ (n : Nat) (t e : Str),
        callPhotoProxy true n t (some { error := some e, data := none })
          = .ok { status := str "COMPLETED", originalUrl := none, enhancedUrl := none }) := by
  constructor
  · intro n t b; rfl
  · intro n t e; rfl

/-- Claim C8 witness: a concrete application of the amended statement. -/
theorem claim_c8_amended_witness :
    (callPhotoProxy true 200 (str "")
        (some { error := some (str "boom"), data := none })).isOk = true :=
  claim_c8_amended.1 200 (str "") { error := some (str "boom"), data := none }

/-- Claim C9 counterexample: a payload wrapped with a newline is NOT
stripped and decoded — the anchored match itself fails (JS `.` does not
cross line terminators), while the clean payload decodes fine. -/
theorem claim_c9_counterexample :
    parseDataUrl (str "data:image/png;base64,QU\nJD") = .error (str "Invalid data URL.") ∧
    parseDataUrl (str "data:image/png;base64,QUJD") = .ok (str "image/png", [65, 66, 67]) := by
  decide

/-- Claim C9 (amended): for payloads free of line terminators, decoding
depends only on the cleaned payload — embedded non-line-break whitespace is
stripped and the URL-safe alphabet is normalized, decoding to the same
bytes as the clean standard-alphabet payload; but a payload containing a
newline or carriage return fails the data-URL match outright. -/
theorem claim_c9_amended :
    (∀ sub p q : Str, sub ≠ [] → sub.all isSubtypeChar = true →
        p.all (fun c => !(isLineTerm c)) = true → q.all (fun c => !(isLineTerm c)) = true →
        b64clean p = b64clean q →
        parseDataUrl (mkDataUrl sub p) = parseDataUrl (mkDataUrl sub q)) ∧
    (∀ sub p : Str, sub ≠ [] → sub.all isSubtypeChar = true → ('\n' ∈ p ∨ '\r' ∈ p) →
        parseDataUrl (mkDataUrl sub p) = .error (str "Invalid data URL.")) := by
  constructor
  · intro sub p q h1 h2 hp hq hclean
    rw [parseDataUrl_mk sub p h1 h2 hp, parseDataUrl_mk sub q h1 h2 hq, hclean]
  · intro sub p h1 h2 h3
    have hall : p.all (fun c => !(isLineTerm c)) = false := by
      cases hB : p.all (fun c => !(isLineTerm c)) with
      | false => rfl
      | true =>
        rw [List.all_eq_true] at hB
        rcases h3 with h | h
        · exact absurd (hB _ h) (by decide)
        · exact absurd (hB _ h) (by decide)
    unfold parseDataUrl
    rw [dataUrlMatch_mk sub p h1 h2]
    simp [hall]

/-- Claim C9 witness: a space-wrapped and URL-safe-alphabet payload decodes
as its clean form; a newline-wrapped payload fails the match. -/
theorem claim_c9_amended_witness :
    parseDataUrl (mkDataUrl (str "png") (str "QU JD"))
      = parseDataUrl (mkDataUrl (str "png") (str "QUJD")) ∧
    parseDataUrl (mkDataUrl (str "png") (str "QU\nJD"))
      = .error (str "Invalid data URL.") :=
  ⟨claim_c9_amended.1 (str "png") (str "QU JD") (str "QUJD") (by decide) (by decide)
      (by decide) (by decide) (by decide),
   claim_c9_amended.2 (str "png") (str "QU\nJD") (by decide) (by decide)
      (Or.inl (by decide))⟩

end PhotoEnhancer
